import Mathlib

/- Verification of the PEDF-NP reaction scheduler core of this repository:
a shallow embedding of src/core/utils/vector.c and
src/core/threaded/scheduler_PEDF_NP.c, with theorems settling the
specification claims.  Machine integers are modelled as Nat (sizes and the
packed 64-bit reaction index never overflow in the scenarios covered);
pointers into the vector storage are modelled by the list of stored
elements. -/

set_option maxHeartbeats 1000000

namespace ReactorC

/-- Reaction status, as used by the scheduler: transitions are by CAS
between inactive, queued and running. -/
inductive Status where
  | inactive
  | queued
  | running
deriving DecidableEq, Repr

/-- The fields of reaction_t that the scheduler reads or writes.  index
packs the deadline in the high 48 bits and the level in the low 16 bits;
chain_id is a bitmask. -/
structure Reaction where
  index : Nat
  chain_id : Nat
  status : Status
  worker_affinity : Nat
deriving DecidableEq, Repr

/- ===================== vector.c ===================== -/

/-- vector_t from vector.h.  data lists the stored elements in storage
order (start[0] .. start[len-1]), so len = data.length = next - start, and
cap = end - start. -/
structure Vector (α : Type) where
  data : List α
  cap : Nat
  votes_required : Nat
  votes : Nat
deriving DecidableEq, Repr

def REQUIRED_VOTES_TO_SHRINK : Nat := 15

def CAPACITY_TO_SIZE_RATIO_FOR_SHRINK_VOTE : Nat := 4

def SCALE_FACTOR : Nat := 2

/-- vector_new: fresh empty vector with the requested capacity (the C code
asserts initial_capacity > 0). -/
def vector_new (α : Type) (initial_capacity : Nat) : Vector α :=
  { data := [], cap := initial_capacity,
    votes_required := REQUIRED_VOTES_TO_SHRINK, votes := 0 }

/-- vector_resize: a no-op when new_capacity = 0, otherwise reallocates to
the new capacity and resets the vote counter.  The C assert
size <= new_capacity holds at every call site, so no truncation occurs. -/
def vector_resize {α : Type} (v : Vector α) (new_capacity : Nat) : Vector α :=
  if new_capacity = 0 then v
  else { v with cap := new_capacity, votes := 0 }

/-- vector_push: on a full vector, increment the shrink threshold and grow
to cap * SCALE_FACTOR, then append the element. -/
def vector_push {α : Type} (v : Vector α) (element : α) : Vector α :=
  let v2 :=
    if v.data.length = v.cap then
      vector_resize { v with votes_required := v.votes_required + 1 }
        (v.cap * SCALE_FACTOR)
    else v
  { v2 with data := v2.data ++ [element] }

/-- vector_pushall: if the elements do not fit, grow once to
(len + size) * SCALE_FACTOR, then append all elements in order. -/
def vector_pushall {α : Type} (v : Vector α) (array : List α) : Vector α :=
  let required : Nat := v.data.length + array.length
  let v2 := if v.cap < required then vector_resize v (required * SCALE_FACTOR)
            else v
  { v2 with data := v2.data ++ array }

/-- vector_pop: on an empty vector, possibly shrink (the C code guards the
resize call with new_capacity > 0, and vector_resize is itself a no-op at
capacity 0, so composing them is faithful) and return none; otherwise
remove and return the last element. -/
def vector_pop {α : Type} (v : Vector α) : Option α × Vector α :=
  if v.data.isEmpty then
    if v.votes_required ≤ v.votes then
      (none, vector_resize v (v.cap / SCALE_FACTOR))
    else (none, v)
  else (v.data.getLast?, { v with data := v.data.dropLast })

/-- vector_vote: vote is 1 when len * 4 fits in cap, else 0; the counter
becomes vote * votes + vote. -/
def vector_vote {α : Type} (v : Vector α) : Vector α :=
  let size := v.data.length
  let vote : Nat :=
    if size * CAPACITY_TO_SIZE_RATIO_FOR_SHRINK_VOTE ≤ v.cap then 1 else 0
  { v with votes := vote * v.votes + vote }

/- ---- operation sequences over a vector, for the amortized-shrink claim -/

/-- One externally invokable vector operation (vector_free does not change
the observable fields and vector_new only starts a sequence). -/
inductive VOp (α : Type) where
  | push (x : α)
  | pushall (xs : List α)
  | pop
  | vote
deriving Repr

/-- Apply one operation (a pop discards the returned element). -/
def vstep {α : Type} (v : Vector α) : VOp α → Vector α
  | .push x => vector_push v x
  | .pushall xs => vector_pushall v xs
  | .pop => (vector_pop v).2
  | .vote => vector_vote v

/-- Run a sequence of operations. -/
def vrun {α : Type} (v : Vector α) (ops : List (VOp α)) : Vector α :=
  List.foldl vstep v ops

/-- The operation is a vote that observes len * 4 ≤ cap. -/
def qualVote {α : Type} (v : Vector α) : VOp α → Bool
  | .vote => decide (v.data.length * 4 ≤ v.cap)
  | _ => false

/-- The operation is a vote that observes len * 4 > cap (clearing votes). -/
def disqualVote {α : Type} (v : Vector α) : VOp α → Bool
  | .vote => decide (v.cap < v.data.length * 4)
  | _ => false

/-- The operation actually reallocates the storage (growth in push or
pushall, or the halving performed by a pop on an empty vector). -/
def doesResize {α : Type} (v : Vector α) : VOp α → Bool
  | .push _ => decide (v.data.length = v.cap) && decide (v.cap ≠ 0)
  | .pushall xs => decide (v.cap < v.data.length + xs.length)
  | .pop => v.data.isEmpty && decide (v.votes_required ≤ v.votes) &&
      decide (v.cap / 2 ≠ 0)
  | .vote => false

/-- Count the shrink votes accumulated by ops when run from v: some n when
ops contains exactly n vote operations, each observing len * 4 ≤ cap at its
application, and no operation in ops reallocates the storage or casts a
disqualifying vote; none otherwise. -/
def qcount {α : Type} (v : Vector α) : List (VOp α) → Option Nat
  | [] => some 0
  | op :: rest =>
    if disqualVote v op || doesResize v op then none
    else if qualVote v op then (qcount (vstep v op) rest).map (· + 1)
    else qcount (vstep v op) rest

/- ===================== vector lemmas ===================== -/

theorem vstep_votes {α : Type} (v : Vector α) (op : VOp α) :
    (vstep v op).votes =
      if qualVote v op then v.votes + 1
      else if disqualVote v op || doesResize v op then 0
      else v.votes := by
  cases op with
  | push x =>
    by_cases h1 : v.data.length = v.cap
    · by_cases h2 : v.cap = 0
      · simp [vstep, vector_push, vector_resize, qualVote, disqualVote,
          doesResize, SCALE_FACTOR, h1, h2]
      · have h3 : ¬ v.cap * 2 = 0 := by omega
        simp [vstep, vector_push, vector_resize, qualVote, disqualVote,
          doesResize, SCALE_FACTOR, h1, h2, h3]
    · simp [vstep, vector_push, vector_resize, qualVote, disqualVote,
        doesResize, h1]
  | pushall xs =>
    by_cases h1 : v.cap < v.data.length + xs.length
    · have h3 : ¬ (v.data.length + xs.length) * 2 = 0 := by omega
      simp [vstep, vector_pushall, vector_resize, qualVote, disqualVote,
        doesResize, SCALE_FACTOR, h1, h3]
    · simp [vstep, vector_pushall, qualVote, disqualVote, doesResize, h1]
  | pop =>
    by_cases h1 : v.data.isEmpty
    · by_cases h2 : v.votes_required ≤ v.votes
      · by_cases h3 : v.cap / 2 = 0
        · simp [vstep, vector_pop, vector_resize, qualVote, disqualVote,
            doesResize, SCALE_FACTOR, h1, h2, h3]
        · simp [vstep, vector_pop, vector_resize, qualVote, disqualVote,
            doesResize, SCALE_FACTOR, h1, h2, h3]
      · simp [vstep, vector_pop, qualVote, disqualVote, doesResize, h1, h2]
    · simp [vstep, vector_pop, qualVote, disqualVote, doesResize, h1]
  | vote =>
    by_cases h : v.data.length * 4 ≤ v.cap
    · have h2 : ¬ v.cap < v.data.length * 4 := by omega
      simp [vstep, vector_vote, qualVote, disqualVote, doesResize,
        CAPACITY_TO_SIZE_RATIO_FOR_SHRINK_VOTE, h, h2]
    · have h2 : v.cap < v.data.length * 4 := by omega
      simp [vstep, vector_vote, qualVote, disqualVote, doesResize,
        CAPACITY_TO_SIZE_RATIO_FOR_SHRINK_VOTE, h, h2]

theorem vstep_cap_pos {α : Type} (v : Vector α) (op : VOp α)
    (h : 1 ≤ v.cap) : 1 ≤ (vstep v op).cap := by
  cases op with
  | push x =>
    by_cases h1 : v.data.length = v.cap
    · have h3 : ¬ v.cap * 2 = 0 := by omega
      simp only [vstep, vector_push, vector_resize, SCALE_FACTOR, h1,
        if_true, h3, if_false]
      omega
    · simpa [vstep, vector_push, h1] using h
  | pushall xs =>
    by_cases h1 : v.cap < v.data.length + xs.length
    · have h3 : ¬ (v.data.length + xs.length) * 2 = 0 := by omega
      simp only [vstep, vector_pushall, vector_resize, SCALE_FACTOR, h1,
        if_true, h3, if_false]
      omega
    · simpa [vstep, vector_pushall, h1] using h
  | pop =>
    by_cases h1 : v.data.isEmpty
    · by_cases h2 : v.votes_required ≤ v.votes
      · by_cases h3 : v.cap / 2 = 0
        · simpa [vstep, vector_pop, vector_resize, SCALE_FACTOR, h1, h2, h3]
            using h
        · simp only [vstep, vector_pop, vector_resize, SCALE_FACTOR, h1,
            if_true, h2, h3, if_false]
          omega
      · simpa [vstep, vector_pop, h1, h2] using h
    · simpa [vstep, vector_pop, h1] using h
  | vote => simpa [vstep, vector_vote] using h

theorem vrun_cap_pos {α : Type} (ops : List (VOp α)) :
    ∀ v : Vector α, 1 ≤ v.cap → 1 ≤ (vrun v ops).cap := by
  induction ops with
  | nil => intro v h; simpa [vrun] using h
  | cons op rest ih =>
    intro v h
    simpa [vrun] using ih (vstep v op) (vstep_cap_pos v op h)

theorem vstep_votes_required {α : Type} (v : Vector α) (op : VOp α) :
    v.votes_required ≤ (vstep v op).votes_required := by
  cases op with
  | push x =>
    by_cases h1 : v.data.length = v.cap
    · by_cases h2 : v.cap * SCALE_FACTOR = 0 <;>
        simp [vstep, vector_push, vector_resize, h1, h2]
    · simp [vstep, vector_push, h1]
  | pushall xs =>
    by_cases h1 : v.cap < v.data.length + xs.length
    · by_cases h2 : (v.data.length + xs.length) * SCALE_FACTOR = 0 <;>
        simp [vstep, vector_pushall, vector_resize, h1, h2]
    · simp [vstep, vector_pushall, h1]
  | pop =>
    by_cases h1 : v.data.isEmpty
    · by_cases h2 : v.votes_required ≤ v.votes
      · by_cases h3 : v.cap / SCALE_FACTOR = 0 <;>
          simp [vstep, vector_pop, vector_resize, h1, h2, h3]
      · simp [vstep, vector_pop, h1, h2]
    · simp [vstep, vector_pop, h1]
  | vote => simp [vstep, vector_vote]

theorem vrun_votes_required {α : Type} (ops : List (VOp α)) :
    ∀ v : Vector α, v.votes_required ≤ (vrun v ops).votes_required := by
  induction ops with
  | nil => intro v; simp [vrun]
  | cons op rest ih =>
    intro v
    calc v.votes_required ≤ (vstep v op).votes_required :=
          vstep_votes_required v op
      _ ≤ (vrun (vstep v op) rest).votes_required := ih (vstep v op)
      _ = (vrun v (op :: rest)).votes_required := by simp [vrun]

theorem qual_not_disqual {α : Type} (v : Vector α) (op : VOp α)
    (h : qualVote v op = true) :
    disqualVote v op = false ∧ doesResize v op = false := by
  cases op with
  | vote =>
    simp only [qualVote, decide_eq_true_eq] at h
    constructor
    · simp only [disqualVote, decide_eq_false_iff_not]
      omega
    · rfl
  | push x => simp [qualVote] at h
  | pushall xs => simp [qualVote] at h
  | pop => simp [qualVote] at h

/-- Decomposition of any run into a prefix and a suffix such that the
suffix is a clean voting streak (no reallocation, no disqualifying vote)
accounting exactly for the votes accumulated beyond the votes held at the
start of the suffix, and the votes at the start of the suffix are 0 unless
the suffix is the whole run. -/
theorem vrun_votes_decomp {α : Type} (ops : List (VOp α)) :
    ∀ v : Vector α, ∃ pre suf n,
      ops = pre ++ suf ∧ qcount (vrun v pre) suf = some n ∧
      (vrun v ops).votes = (vrun v pre).votes + n ∧
      (pre = [] ∨ (vrun v pre).votes = 0) := by
  induction ops with
  | nil =>
    intro v
    exact ⟨[], [], 0, rfl, rfl, by simp [vrun], Or.inl rfl⟩
  | cons op rest ih =>
    intro v
    obtain ⟨pre2, suf2, n2, hsplit, hq, hv, hz⟩ := ih (vstep v op)
    have hv2 : (vrun (vstep v op) rest).votes =
        (vrun (vstep v op) pre2).votes + n2 := hv
    rcases hz with hnil | hzero
    · -- the streak of rest covers all of rest
      subst hnil
      have hrest : rest = suf2 := by simpa using hsplit
      have hq3 : qcount (vstep v op) suf2 = some n2 := by
        simpa [vrun] using hq
      have hv3 : (vrun (vstep v op) rest).votes = (vstep v op).votes + n2 := by
        simpa [vrun] using hv2
      by_cases hqual : qualVote v op = true
      · -- qualifying vote: extend the streak to the left
        obtain ⟨hd, hr⟩ := qual_not_disqual v op hqual
        refine ⟨[], op :: suf2, n2 + 1, by simp [hrest], ?_, ?_, Or.inl rfl⟩
        · simp only [vrun, List.foldl_nil, qcount, hd, hr, Bool.or_self,
            Bool.false_eq_true, if_false, hqual, if_true, hq3]
          rfl
        · have hs := vstep_votes v op
          rw [if_pos hqual] at hs
          simp only [vrun, List.foldl_cons, List.foldl_nil] at hv3 ⊢
          omega
      · by_cases hreset : (disqualVote v op || doesResize v op) = true
        · -- resetting operation: the streak starts right after it
          have hvz : (vstep v op).votes = 0 := by
            have hs := vstep_votes v op
            rw [if_neg hqual, if_pos hreset] at hs
            exact hs
          refine ⟨[op], suf2, n2, by simp [hrest], ?_, ?_, Or.inr ?_⟩
          · simpa [vrun] using hq3
          · simp only [vrun, List.foldl_cons, List.foldl_nil] at hv3 ⊢
            omega
          · simpa [vrun] using hvz
        · -- neutral operation: votes unchanged, extend the streak
          have hreset2 : (disqualVote v op || doesResize v op) = false := by
            simpa using hreset
          have hqual2 : qualVote v op = false := by simpa using hqual
          have hvs : (vstep v op).votes = v.votes := by
            have hs := vstep_votes v op
            rw [if_neg hqual, if_neg hreset] at hs
            exact hs
          refine ⟨[], op :: suf2, n2, by simp [hrest], ?_, ?_, Or.inl rfl⟩
          · simp only [vrun, List.foldl_nil, qcount, hreset2,
              Bool.false_eq_true, if_false, hqual2, hq3]
          · simp only [vrun, List.foldl_cons, List.foldl_nil] at hv3 ⊢
            omega
    · -- the streak of rest already starts after a reset inside rest
      refine ⟨op :: pre2, suf2, n2, by simp [hsplit], ?_, ?_, Or.inr ?_⟩
      · simpa [vrun] using hq
      · simp only [vrun, List.foldl_cons] at hv2 ⊢
        exact hv2
      · simpa [vrun] using hzero

/- ===================== claim C5 ===================== -/

/-- Claim C5, as stated, fails at this concrete vector: empty contents,
capacity 1, votes 15 = threshold. -/
def cex5 : Vector Nat := { data := [], cap := 1, votes_required := 15, votes := 15 }

/-- Claim C5 counterexample: popping the empty vector cex5 (whose votes
have reached the threshold) leaves the vote counter at 15 instead of
resetting it to 0, because the capacity-1 shrink target 1 / 2 = 0 makes
vector_resize a no-op and the votes are only reset inside vector_resize. -/
theorem c5_counterexample :
    cex5.votes_required ≤ cex5.votes ∧
    (vector_pop cex5).1 = none ∧
    (vector_pop cex5).2.votes = 15 ∧
    ¬ (vector_pop cex5).2.votes = 0 := by decide

/-- Claim C5 (amended): vector_pop on an empty vector returns none; if at
that moment votes ≥ threshold and cap ≥ 2, it halves the capacity and
resets the vote counter to 0; if votes ≥ threshold but cap = 1, capacity
and votes are both left unchanged; if votes < threshold nothing changes.
On a non-empty vector it removes and returns the last element without
changing capacity or votes. -/
theorem c5_vector_pop_spec {α : Type} (v : Vector α) :
    (v.data = [] →
      (vector_pop v).1 = none ∧
      (v.votes_required ≤ v.votes → 2 ≤ v.cap →
        (vector_pop v).2 = { v with cap := v.cap / 2, votes := 0 }) ∧
      (v.votes_required ≤ v.votes → v.cap ≤ 1 → (vector_pop v).2 = v) ∧
      (v.votes < v.votes_required → (vector_pop v).2 = v)) ∧
    (∀ l x, v.data = l ++ [x] →
      (vector_pop v).1 = some x ∧
      (vector_pop v).2 = { v with data := l }) := by
  constructor
  · intro hd
    have he : v.data.isEmpty = true := by simp [hd]
    refine ⟨?_, ?_, ?_, ?_⟩
    · by_cases h2 : v.votes_required ≤ v.votes <;>
        simp [vector_pop, he, h2, vector_resize]
    · intro h2 h3
      have h4 : ¬ v.cap / 2 = 0 := by omega
      simp [vector_pop, he, h2, vector_resize, SCALE_FACTOR, h4]
    · intro h2 h3
      have h4 : v.cap / 2 = 0 := by omega
      simp [vector_pop, he, h2, vector_resize, SCALE_FACTOR, h4]
    · intro h2
      have h3 : ¬ v.votes_required ≤ v.votes := by omega
      simp [vector_pop, he, h3]
  · intro l x hd
    have he : v.data.isEmpty = false := by rw [hd]; simp
    constructor
    · simp [vector_pop, he, hd]
    · simp [vector_pop, he, hd]

/-- Claim C5 witness: the amended pop behaviour evaluated at a concrete
empty vector of capacity 4 with votes at the threshold. -/
theorem c5_witness :
    (vector_pop (Vector.mk ([] : List Nat) 4 15 15)).1 = none ∧
    (vector_pop (Vector.mk ([] : List Nat) 4 15 15)).2 =
      { Vector.mk ([] : List Nat) 4 15 15 with cap := 2, votes := 0 } := by
  have h := (c5_vector_pop_spec (Vector.mk ([] : List Nat) 4 15 15)).1 rfl
  exact ⟨h.1, h.2.1 (by decide) (by decide)⟩

/- ===================== claim C6 ===================== -/

/-- Claim C6, as stated, fails at this concrete vector: 4 elements at
capacity 4, then pushall of one element. -/
def cex6 : Vector Nat := { data := [1, 2, 3, 4], cap := 4, votes_required := 15, votes := 0 }

/-- Claim C6 counterexample: pushing one more element into the full cex6
grows the capacity to 2 * (len + n) = 10, not to
max(required, 2 * cap) = max 5 8 = 8. -/
theorem c6_counterexample :
    (vector_pushall cex6 [5]).cap = 10 ∧
    ¬ (vector_pushall cex6 [5]).cap =
        max (cex6.data.length + 1) (2 * cex6.cap) := by decide

/-- Claim C6 (amended): vector_pushall appends the elements in order; when
they do not fit it grows the capacity exactly once, to 2 * (len + n) where
n is the number of new elements (resetting the shrink votes, threshold
unchanged); when they fit, capacity, votes and threshold are unchanged. -/
theorem c6_vector_pushall_spec {α : Type} (v : Vector α) (xs : List α) :
    (vector_pushall v xs).data = v.data ++ xs ∧
    (v.cap < v.data.length + xs.length →
      (vector_pushall v xs).cap = (v.data.length + xs.length) * 2 ∧
      (vector_pushall v xs).votes = 0 ∧
      (vector_pushall v xs).votes_required = v.votes_required) ∧
    (v.data.length + xs.length ≤ v.cap →
      (vector_pushall v xs).cap = v.cap ∧
      (vector_pushall v xs).votes = v.votes ∧
      (vector_pushall v xs).votes_required = v.votes_required) := by
  refine ⟨?_, ?_, ?_⟩
  · by_cases h1 : v.cap < v.data.length + xs.length
    · have h2 : ¬ (v.data.length + xs.length) * 2 = 0 := by omega
      simp [vector_pushall, h1, vector_resize, SCALE_FACTOR, h2]
    · simp [vector_pushall, h1]
  · intro h1
    have h2 : ¬ (v.data.length + xs.length) * 2 = 0 := by omega
    simp [vector_pushall, h1, vector_resize, SCALE_FACTOR, h2]
  · intro h1
    have h2 : ¬ v.cap < v.data.length + xs.length := by omega
    simp [vector_pushall, h2]

/-- Claim C6 witness: the amended pushall behaviour at cex6 with one new
element. -/
theorem c6_witness :
    (vector_pushall cex6 [5]).data = cex6.data ++ [5] ∧
    (vector_pushall cex6 [5]).cap = (cex6.data.length + 1) * 2 := by
  have h := c6_vector_pushall_spec cex6 [5]
  exact ⟨h.1, by simpa using (h.2.1 (by decide)).1⟩

/- ===================== claim C8 ===================== -/

/-- Claim C8: vector_vote sets the vote counter to votes + 1 when
len * 4 ≤ cap and to 0 otherwise, and changes no other field. -/
theorem c8_vector_vote_spec {α : Type} (v : Vector α) :
    (vector_vote v).votes =
      (if v.data.length * 4 ≤ v.cap then v.votes + 1 else 0) ∧
    (vector_vote v).data = v.data ∧
    (vector_vote v).cap = v.cap ∧
    (vector_vote v).votes_required = v.votes_required := by
  refine ⟨?_, rfl, rfl, rfl⟩
  simp only [vector_vote, CAPACITY_TO_SIZE_RATIO_FOR_SHRINK_VOTE]
  by_cases h : v.data.length * 4 ≤ v.cap
  · simp [h]
  · simp [h]

/- ===================== claim C7 ===================== -/

/-- Claim C7: starting from vector_new with initial capacity at least 1,
the capacity never drops below 1, and whenever a pop performs a shrink the
operation prefix before the pop splits as pre ++ suf, where the suffix is
an uninterrupted streak (no reallocation, no disqualifying vote) with at
least 15 qualifying vote operations, each observing len * 4 ≤ cap — so at
least 15 consecutive qualifying votes accumulated since the last grow or
shrink. -/
theorem c7_vector_shrink_discipline (cap0 : Nat) (hcap : 1 ≤ cap0)
    (ops : List (VOp Nat)) :
    1 ≤ (vrun (vector_new Nat cap0) ops).cap ∧
    (∀ p rest, ops = p ++ (VOp.pop :: rest) →
      doesResize (vrun (vector_new Nat cap0) p) VOp.pop = true →
      ∃ pre suf n, p = pre ++ suf ∧
        qcount (vrun (vector_new Nat cap0) pre) suf = some n ∧ 15 ≤ n) := by
  constructor
  · exact vrun_cap_pos ops (vector_new Nat cap0) (by simpa [vector_new] using hcap)
  · intro p rest hsplit hshrink
    obtain ⟨pre, suf, n, hps, hqc, hvt, hz⟩ :=
      vrun_votes_decomp p (vector_new Nat cap0)
    refine ⟨pre, suf, n, hps, hqc, ?_⟩
    have hreq : 15 ≤ (vrun (vector_new Nat cap0) p).votes_required := by
      have := vrun_votes_required p (vector_new Nat cap0)
      simpa [vector_new, REQUIRED_VOTES_TO_SHRINK] using this
    have hvotes : (vrun (vector_new Nat cap0) p).votes_required ≤
        (vrun (vector_new Nat cap0) p).votes := by
      simp only [doesResize, Bool.and_eq_true, decide_eq_true_eq] at hshrink
      exact hshrink.1.2
    have hbase : (vrun (vector_new Nat cap0) pre).votes = 0 := by
      rcases hz with h | h
      · subst h; simp [vrun, vector_new]
      · exact h
    omega

/-- Claim C7 witness: the discipline evaluated at initial capacity 1 and
the empty operation sequence. -/
theorem c7_witness :
    1 ≤ (vrun (vector_new Nat 1) []).cap ∧
    (∀ p rest, ([] : List (VOp Nat)) = p ++ (VOp.pop :: rest) →
      doesResize (vrun (vector_new Nat 1) p) VOp.pop = true →
      ∃ pre suf n, p = pre ++ suf ∧
        qcount (vrun (vector_new Nat 1) pre) suf = some n ∧ 15 ≤ n) :=
  c7_vector_shrink_discipline 1 (by decide) []

/- ===================== precedence oracle (scheduler_PEDF_NP.c) ======== -/

/-- LEVEL(index) = index & 0xFFFF, the low 16 bits of the packed key. -/
def LEVEL (index : Nat) : Nat := index % 65536

/-- OVERLAPPING(chain1, chain2) = ((chain1 & chain2) != 0). -/
def OVERLAPPING (chain1 chain2 : Nat) : Bool := Nat.land chain1 chain2 != 0

/-- _lf_has_precedence_over: r1 has precedence over r2 when its level is
strictly lower and the chain ids overlap. -/
def lf_has_precedence_over (r1 r2 : Reaction) : Bool :=
  decide (LEVEL r1.index < LEVEL r2.index) && OVERLAPPING r1.chain_id r2.chain_id

/-- _lf_is_blocked_by_executing_or_blocked_reaction, for a non-null
candidate.  executing_q lists the reactions stored in the heap slots
d[1..size-1] of the executing queue, head first, so the list head is the
heap top (the element with minimal index); the loop over i = 1..size-1
visits exactly these elements.  transfer_junk lists the values obtained by
the transfer-queue loop of the C code: that loop casts the ADDRESS of each
vector slot (transfer_q.start + i) to reaction_t* instead of reading the
stored pointer, so the values it compares against are reinterpreted memory,
not the reactions held by transfer_q; they are therefore an unconstrained
parameter here. -/
def lf_is_blocked_by_executing_or_blocked_reaction
    (executing_q : List Reaction) (transfer_junk : List Reaction)
    (reaction : Reaction) : Bool :=
  match executing_q with
  | [] => transfer_junk.any (fun b => lf_has_precedence_over b reaction)
  | head :: rest =>
    if reaction.index ≤ head.index then false
    else if (head :: rest).any (fun q => lf_has_precedence_over q reaction) then
      true
    else transfer_junk.any (fun b => lf_has_precedence_over b reaction)

/-- The blocking predicate the specification states: some reaction in
executing_q or transfer_q has a strictly lower level and an overlapping
chain id. -/
def specBlocked (executing_q transfer_q : List Reaction) (r : Reaction) : Prop :=
  ∃ q ∈ executing_q ++ transfer_q,
    LEVEL q.index < LEVEL r.index ∧ Nat.land q.chain_id r.chain_id ≠ 0

/-- An executing reaction with deadline 1 and level 1 (packed index
2^16 + 1) on chain 1. -/
def c1_executing : Reaction :=
  { index := 65537, chain_id := 1, status := Status.running, worker_affinity := 0 }

/-- A candidate reaction with deadline 0 and level 5 (packed index 5) on
chain 1. -/
def c1_candidate : Reaction :=
  { index := 5, chain_id := 1, status := Status.queued, worker_affinity := 0 }

/-- Claim C1 fails on the code (code bug): with executing_q = [c1_executing]
(a valid one-element heap: the head is trivially minimal) and transfer_q
empty, the candidate has packed index 5 ≤ 65537, so the fast path returns
false (not blocked), yet LEVEL(c1_executing) = 1 < 5 = LEVEL(c1_candidate)
with overlapping chain ids, so the documented predicate says blocked: the
fast path confuses minimality of the packed deadline-level index with
minimality of the level, which fails as soon as deadlines differ. -/
theorem c1_fast_path_unsound :
    lf_is_blocked_by_executing_or_blocked_reaction [c1_executing] [] c1_candidate
      = false ∧
    specBlocked [c1_executing] [] c1_candidate := by
  constructor
  · rfl
  · exact ⟨c1_executing, by simp, by decide, by decide⟩

/- ===================== scheduler state ===================== -/

/-- _lf_sched_thread_info_t, the per-worker slot.  The priority queue
ready_reactions and the vectors output_reactions / done_reactions are
modelled by the lists of reaction ids they hold (the growth metadata of
the underlying containers is verified separately above); is_idle is the
0/1 flag and should_stop the stop flag. -/
structure Worker where
  ready_reactions : List Nat
  output_reactions : List Nat
  done_reactions : List Nat
  is_idle : Bool
  should_stop : Bool
deriving DecidableEq, Repr, Inhabited

/-- The scheduler state: reactions are identified by ids, their mutable
record is rmap; reaction_q and executing_q are the global priority queues
(as multisets of ids, pop removing a minimal-index element); workers is
the slot array and balancing_index the placement cursor. -/
structure Sched where
  rmap : Nat → Reaction
  reaction_q : List Nat
  executing_q : List Nat
  workers : List Worker
  balancing_index : Nat

/-- Replace the status of reaction rid (the effect of a successful CAS on
reaction->status). -/
def setStatus (rmap : Nat → Reaction) (rid : Nat) (s : Status) :
    Nat → Reaction :=
  fun i => if i = rid then { rmap rid with status := s } else rmap i

/-- Set reaction->worker_affinity. -/
def setAffinity (rmap : Nat → Reaction) (rid : Nat) (wa : Nat) :
    Nat → Reaction :=
  fun i => if i = rid then { rmap rid with worker_affinity := wa } else rmap i

/-- pqueue_insert into a queue modelled as a multiset of ids (allocation
failure, the only failure mode of the C function, is not modelled). -/
def pqInsert (q : List Nat) (rid : Nat) : List Nat := q ++ [rid]

/-- pqueue_pop: remove an element whose reaction has minimal index (the
first such, for determinism); none on an empty queue. -/
def pqPop (rmap : Nat → Reaction) : List Nat → Option (Nat × List Nat)
  | [] => none
  | x :: xs =>
    match pqPop rmap xs with
    | none => some (x, [])
    | some (m, rest) =>
      if (rmap x).index ≤ (rmap m).index then some (x, xs)
      else some (m, x :: rest)

/-- pqueue_remove by identity: removes the first occurrence of the id, or
none when it is absent (the C caller treats that as fatal). -/
def pqRemove (q : List Nat) (rid : Nat) : Option (List Nat) :=
  match q with
  | [] => none
  | x :: xs =>
    if x = rid then some xs else (pqRemove xs rid).map (fun r => x :: r)

/- ===================== lf_sched_trigger_reaction ===================== -/

/-- lf_sched_trigger_reaction.  The anonymous path (worker_number = -1)
CASes status inactive -> queued and on success inserts into reaction_q;
the worker path CASes, then sets worker_affinity and appends to that
worker's output_reactions.  A failed CAS takes no action in either path —
the source contains no abort in this function — so the embedding is a
total function on the state. -/
def lf_sched_trigger_reaction (st : Sched) (reaction : Option Nat)
    (worker_number : Int) : Sched :=
  if worker_number = -1 then
    match reaction with
    | none => st
    | some rid =>
      if (st.rmap rid).status = Status.inactive then
        { st with rmap := setStatus st.rmap rid Status.queued,
                  reaction_q := pqInsert st.reaction_q rid }
      else st
  else
    match reaction with
    | none => st
    | some rid =>
      if (st.rmap rid).status = Status.inactive then
        let w := worker_number.toNat
        let wk := st.workers.getD w default
        let wk2 := { wk with output_reactions := wk.output_reactions ++ [rid] }
        { st with
          rmap := setAffinity (setStatus st.rmap rid Status.queued) rid w,
          workers := st.workers.set w wk2 }
      else st

/- ===================== claim C10 ===================== -/

/-- Claim C10: lf_sched_trigger_reaction with a NULL reaction is a safe
no-op for every worker_number, the anonymous value -1 included: it returns
normally (the function has no abort path) and the state — every queue,
every worker buffer, every reaction status and affinity — is unchanged. -/
theorem c10_trigger_null_noop (st : Sched) (worker_number : Int) :
    lf_sched_trigger_reaction st none worker_number = st := by
  unfold lf_sched_trigger_reaction
  split <;> rfl

/- ===================== claim C3 ===================== -/

/-- A reaction map in which every reaction is already queued. -/
def c3_rmap : Nat → Reaction := fun _ =>
  { index := 0, chain_id := 0, status := Status.queued, worker_affinity := 0 }

/-- A concrete scheduler state for the trigger counterexample. -/
def c3_state : Sched :=
  { rmap := c3_rmap, reaction_q := [], executing_q := [],
    workers := [default], balancing_index := 0 }

/-- Claim C3 counterexample: triggering reaction 0, whose status is queued
(not inactive), makes the CAS fail — and the call simply returns with the
state unchanged instead of aborting: scheduler_PEDF_NP.c lines 662-684
contain no error_print_and_exit; the guarded if silently skips the enqueue
(the comment there says "Do not enqueue this reaction twice"). -/
theorem c3_counterexample :
    (c3_state.rmap 0).status ≠ Status.inactive ∧
    lf_sched_trigger_reaction c3_state (some 0) (-1) = c3_state := by
  constructor
  · decide
  · rfl

/-- Claim C3 (amended): a call to lf_sched_trigger_reaction whose status
CAS fails (status not inactive) is a silent no-op for every worker_number:
the reaction is not enqueued anywhere and no state changes and no abort
occurs.  (The fatal-on-failed-CAS rule holds for the queued -> running CAS
in placement and the running -> inactive CAS in done_with_reaction, but
not in trigger.) -/
theorem c3_trigger_failed_cas_noop (st : Sched) (rid : Nat)
    (worker_number : Int)
    (h : (st.rmap rid).status ≠ Status.inactive) :
    lf_sched_trigger_reaction st (some rid) worker_number = st := by
  unfold lf_sched_trigger_reaction
  split
  · simp [h]
  · simp [h]

/-- Claim C3 witness: the amended no-op behaviour at a concrete state, for
a worker caller (worker 0). -/
theorem c3_witness :
    (c3_state.rmap 1).status ≠ Status.inactive ∧
    lf_sched_trigger_reaction c3_state (some 1) 0 = c3_state :=
  ⟨by decide, c3_trigger_failed_cas_noop c3_state 1 0 (by decide)⟩

/- ===================== claim C9 ===================== -/

/-- Outcome of one iteration of the lf_sched_get_ready_reaction loop:
the reaction handed to the worker (none when it must go wait for work),
which worker a steal was attempted from (none when no steal attempt was
made), and the updated state. -/
structure GetReadyIterResult where
  result : Option Nat
  steal_attempt : Option Nat
  st : Sched

/-- One iteration of the loop body of lf_sched_get_ready_reaction for
worker worker_number: pop the worker's own ready_reactions (under its
mutex); if that returns none and the number of workers exceeds 1, pop once
from worker (worker_number + 1) % W (under that worker's mutex) and return
the stolen reaction when there is one. -/
def lf_sched_get_ready_reaction_iter (st : Sched) (worker_number : Nat) :
    GetReadyIterResult :=
  let own := (st.workers.getD worker_number default).ready_reactions
  match pqPop st.rmap own with
  | some (r, rest) =>
    let wk := st.workers.getD worker_number default
    let wk2 := { wk with ready_reactions := rest }
    { result := some r, steal_attempt := none,
      st := { st with workers := st.workers.set worker_number wk2 } }
  | none =>
    if 1 < st.workers.length then
      let t := (worker_number + 1) % st.workers.length
      match pqPop st.rmap (st.workers.getD t default).ready_reactions with
      | some (r, rest) =>
        let wk := st.workers.getD t default
        let wk2 := { wk with ready_reactions := rest }
        { result := some r, steal_attempt := some t,
          st := { st with workers := st.workers.set t wk2 } }
      | none => { result := none, steal_attempt := some t, st := st }
    else { result := none, steal_attempt := none, st := st }

/-- Claim C9: in an iteration of get_ready_reaction(w) in which the pop
from the worker's own ready_reactions returns none: when W > 1 exactly one
steal attempt is made, from worker (w + 1) % W, and whenever that queue is
non-empty the popped reaction is returned to the caller; when W = 1 no
steal attempt is made (and nothing is returned). -/
theorem c9_steal_spec (st : Sched) (worker_number : Nat)
    (hown : pqPop st.rmap
      (st.workers.getD worker_number default).ready_reactions = none) :
    (1 < st.workers.length →
      (lf_sched_get_ready_reaction_iter st worker_number).steal_attempt =
        some ((worker_number + 1) % st.workers.length) ∧
      (∀ r rest,
        pqPop st.rmap
          (st.workers.getD ((worker_number + 1) % st.workers.length)
            default).ready_reactions = some (r, rest) →
        (lf_sched_get_ready_reaction_iter st worker_number).result = some r)) ∧
    (¬ 1 < st.workers.length →
      (lf_sched_get_ready_reaction_iter st worker_number).steal_attempt = none ∧
      (lf_sched_get_ready_reaction_iter st worker_number).result = none) := by
  constructor
  · intro hW
    constructor
    · simp only [lf_sched_get_ready_reaction_iter, hown, hW, if_true]
      cases hsteal : pqPop st.rmap
          (st.workers.getD ((worker_number + 1) % st.workers.length)
            default).ready_reactions with
      | none => simp [hsteal]
      | some p =>
        obtain ⟨r, rest⟩ := p
        simp [hsteal]
    · intro r rest hsteal
      simp only [lf_sched_get_ready_reaction_iter, hown, hW, if_true, hsteal]
  · intro hW
    constructor <;>
      simp only [lf_sched_get_ready_reaction_iter, hown, hW, if_false]

/-- A two-worker scheduler state for the steal witness: worker 0 has an
empty ready queue, worker 1 holds reaction 3. -/
def c9_state : Sched :=
  { rmap := c3_rmap,
    reaction_q := [], executing_q := [],
    workers :=
      [ { ready_reactions := [], output_reactions := [], done_reactions := [],
          is_idle := false, should_stop := false },
        { ready_reactions := [3], output_reactions := [], done_reactions := [],
          is_idle := false, should_stop := false } ],
    balancing_index := 0 }

/-- Claim C9 witness: worker 0 of c9_state finds its own queue empty,
attempts exactly one steal from worker 1 = (0 + 1) % 2, and returns the
stolen reaction 3. -/
theorem c9_witness :
    (lf_sched_get_ready_reaction_iter c9_state 0).steal_attempt = some 1 ∧
    (lf_sched_get_ready_reaction_iter c9_state 0).result = some 3 := by
  have h := (c9_steal_spec c9_state 0 rfl).1 (by decide)
  exact ⟨h.1, h.2 3 [] rfl⟩

/- ============ _lf_sched_distribute_ready_reaction (claim C4) ========= -/

/-- The scan loop of _lf_sched_distribute_ready_reaction: starting at wid,
check whether the worker is idle; if so stop (returning the chosen worker
and the already-advanced cursor), otherwise advance circularly (increment,
then reset to 0 on reaching W) and iterate, for fuel iterations in total
(the C loop runs W times).  On exhaustion it returns the final cursor,
which becomes the new balancing index. -/
def scanWorkers (idle : Nat → Bool) (W : Nat) : Nat → Nat → Option Nat × Nat
  | wid, 0 => (none, wid)
  | wid, fuel + 1 =>
    if idle wid then (some wid, if wid + 1 = W then 0 else wid + 1)
    else scanWorkers idle W (if wid + 1 = W then 0 else wid + 1) fuel

theorem wrap_eq_mod (W wid : Nat) (h : wid < W) :
    (if wid + 1 = W then 0 else wid + 1) = (wid + 1) % W := by
  by_cases h2 : wid + 1 = W
  · rw [if_pos h2, h2, Nat.mod_self]
  · have h3 : wid + 1 < W := by omega
    rw [if_neg h2, Nat.mod_eq_of_lt h3]

/-- The scan loop finds precisely the first idle worker in circular order
from start: offset k is the first element of range fuel whose worker
(start + k) % W is idle, and on success the cursor advances to the
successor of the chosen worker, modulo W. -/
theorem scanWorkers_spec (idle : Nat → Bool) (W : Nat) :
    ∀ fuel start, 0 < W → start < W →
      scanWorkers idle W start fuel =
        match (List.range fuel).find? (fun k => idle ((start + k) % W)) with
        | some k => (some ((start + k) % W), ((start + k) % W + 1) % W)
        | none => (none, (start + fuel) % W) := by
  intro fuel
  induction fuel with
  | zero =>
    intro start hW hs
    simp [scanWorkers, Nat.mod_eq_of_lt hs]
  | succ fuel ih =>
    intro start hW hs
    have hs0 : (start + 0) % W = start := by
      rw [Nat.add_zero, Nat.mod_eq_of_lt hs]
    have hwrap : (if start + 1 = W then 0 else start + 1) = (start + 1) % W :=
      wrap_eq_mod W start hs
    by_cases hidle : idle start = true
    · have hp : (fun k => idle ((start + k) % W)) 0 = true := by
        show idle ((start + 0) % W) = true
        rw [hs0]
        exact hidle
      have hfc : List.find? (fun k => idle ((start + k) % W))
          (0 :: List.map Nat.succ (List.range fuel)) = some 0 :=
        List.find?_cons_of_pos _ hp
      rw [List.range_succ_eq_map, hfc]
      simp only [scanWorkers, hidle, if_true]
      rw [hwrap, hs0]
    · have hidle2 : idle start = false := by simpa using hidle
      have hp : ¬ ((fun k => idle ((start + k) % W)) 0 = true) := by
        show ¬ (idle ((start + 0) % W) = true)
        rw [hs0, hidle2]
        simp
      have hshift : ∀ k, ((start + 1) % W + k) % W = (start + (k + 1)) % W := by
        intro k
        rw [Nat.mod_add_mod]
        congr 1
        omega
      have hcomp : ((fun k => idle ((start + k) % W)) ∘ Nat.succ) =
          (fun k => idle (((start + 1) % W + k) % W)) := by
        funext k
        simp only [Function.comp, Nat.succ_eq_add_one]
        rw [hshift k]
      have hfc : List.find? (fun k => idle ((start + k) % W))
          (0 :: List.map Nat.succ (List.range fuel)) =
          List.find? (fun k => idle ((start + k) % W))
            (List.map Nat.succ (List.range fuel)) :=
        List.find?_cons_of_neg _ hp
      have hfind : List.find? (fun k => idle ((start + k) % W))
            (List.map Nat.succ (List.range fuel)) =
          ((List.range fuel).find?
            (fun k => idle (((start + 1) % W + k) % W))).map Nat.succ := by
        rw [List.find?_map, hcomp]
      rw [List.range_succ_eq_map, hfc, hfind]
      have hstep : scanWorkers idle W start (fuel + 1) =
          scanWorkers idle W ((start + 1) % W) fuel := by
        simp only [scanWorkers, hidle2, Bool.false_eq_true, if_false, hwrap]
      rw [hstep, ih ((start + 1) % W) hW (Nat.mod_lt _ hW)]
      cases hq : (List.range fuel).find?
          (fun k => idle (((start + 1) % W + k) % W)) with
      | none =>
        simp only [Option.map_none']
        rw [hshift fuel]
      | some k =>
        simp only [Option.map_some']
        rw [hshift k]

/-- The start of the scan: the larger of the worker affinity of the
reaction and the balancing index. -/
def distStart (st : Sched) (rid : Nat) : Nat :=
  max (st.rmap rid).worker_affinity st.balancing_index

/-- The first idle worker offset in circular order from start, over all W
workers. -/
def firstIdleOffset (st : Sched) (start : Nat) : Option Nat :=
  (List.range st.workers.length).find?
    (fun k => (st.workers.getD ((start + k) % st.workers.length)
      default).is_idle)

/-- The successful placement of reaction rid on worker chosen: the status
becomes running (the CAS succeeded), the reaction is inserted into the
ready_reactions of the chosen worker and into executing_q, and the
balancing index becomes next. -/
def placeReaction (st : Sched) (rid chosen next : Nat) : Sched :=
  let wk := st.workers.getD chosen default
  let wk2 := { wk with ready_reactions := pqInsert wk.ready_reactions rid }
  { st with
    rmap := setStatus st.rmap rid Status.running,
    workers := st.workers.set chosen wk2,
    executing_q := pqInsert st.executing_q rid,
    balancing_index := next }

/-- Outcome of _lf_sched_distribute_ready_reaction. -/
structure DistributeResult where
  st : Sched
  found : Bool

/-- _lf_sched_distribute_ready_reaction: scan all W workers in circular
order starting at max(worker_affinity, balancing_index); at the first idle
worker, CAS the status queued -> running (any other observed status is
fatal), insert into that worker's ready queue and into executing_q, and
advance the balancing index past the chosen worker; if nobody is idle,
record the final cursor as the balancing index and report failure. -/
def lf_sched_distribute_ready_reaction (st : Sched) (rid : Nat) :
    Except String DistributeResult :=
  let W := st.workers.length
  let start := distStart st rid
  match scanWorkers (fun i => (st.workers.getD i default).is_idle) W start W with
  | (some chosen, nextIdx) =>
    if (st.rmap rid).status = Status.queued then
      Except.ok { st := placeReaction st rid chosen nextIdx, found := true }
    else Except.error "Unexpected reaction status"
  | (none, nextIdx) =>
    Except.ok { st := { st with balancing_index := nextIdx }, found := false }

/-- Claim C4: with W > 0 workers, affinity and balancing index in range,
placing reaction rid chooses the first idle worker in circular order from
start = max(worker_affinity, balancing_index): if offset k is the first
idle one, then — when the status is queued — the result is the placed
state (status running, inserted into the chosen worker's ready queue and
into executing_q, balancing index = chosen + 1 mod W), while any other
status is a fatal error; if no worker is idle, placement reports failure
with the statuses and queues unchanged (only the cursor is rewritten, to
the start value). -/
theorem c4_distribute_spec (st : Sched) (rid : Nat)
    (hW : 0 < st.workers.length)
    (haff : (st.rmap rid).worker_affinity < st.workers.length)
    (hbal : st.balancing_index < st.workers.length) :
    (∀ k, firstIdleOffset st (distStart st rid) = some k →
      (((st.rmap rid).status = Status.queued →
        lf_sched_distribute_ready_reaction st rid = Except.ok
          { st := placeReaction st rid
              ((distStart st rid + k) % st.workers.length)
              (((distStart st rid + k) % st.workers.length + 1) %
                st.workers.length),
            found := true }) ∧
       ((st.rmap rid).status ≠ Status.queued →
        lf_sched_distribute_ready_reaction st rid =
          Except.error "Unexpected reaction status"))) ∧
    (firstIdleOffset st (distStart st rid) = none →
      lf_sched_distribute_ready_reaction st rid = Except.ok
        { st := { st with balancing_index := distStart st rid },
          found := false }) := by
  have hstart : distStart st rid < st.workers.length := by
    simp only [distStart]
    omega
  have hscan := scanWorkers_spec (fun i => (st.workers.getD i default).is_idle)
    st.workers.length st.workers.length (distStart st rid) hW hstart
  constructor
  · intro k hk
    have hk2 : (List.range st.workers.length).find?
        (fun j => (st.workers.getD ((distStart st rid + j) %
          st.workers.length) default).is_idle) = some k := hk
    rw [hk2] at hscan
    constructor
    · intro hst
      simp only [lf_sched_distribute_ready_reaction]
      rw [hscan]
      simp [hst]
    · intro hst
      simp only [lf_sched_distribute_ready_reaction]
      rw [hscan]
      simp [hst]
  · intro hk
    have hk2 : (List.range st.workers.length).find?
        (fun j => (st.workers.getD ((distStart st rid + j) %
          st.workers.length) default).is_idle) = none := hk
    rw [hk2] at hscan
    have hmod : (distStart st rid + st.workers.length) % st.workers.length =
        distStart st rid := by
      rw [Nat.add_mod_right]
      exact Nat.mod_eq_of_lt hstart
    simp only [lf_sched_distribute_ready_reaction]
    rw [hscan, hmod]

/-- A reaction map whose reaction 0 is queued with affinity 0. -/
def c4_rmap : Nat → Reaction := fun _ =>
  { index := 0, chain_id := 0, status := Status.queued, worker_affinity := 0 }

/-- A two-worker state: worker 0 busy, worker 1 idle. -/
def c4_state : Sched :=
  { rmap := c4_rmap,
    reaction_q := [0], executing_q := [],
    workers :=
      [ { ready_reactions := [], output_reactions := [], done_reactions := [],
          is_idle := false, should_stop := false },
        { ready_reactions := [], output_reactions := [], done_reactions := [],
          is_idle := true, should_stop := false } ],
    balancing_index := 0 }

/-- Claim C4 witness: in c4_state the scan from start 0 skips the busy
worker 0 and places reaction 0 on worker 1, advancing the balancing index
to (1 + 1) % 2 = 0. -/
theorem c4_witness :
    lf_sched_distribute_ready_reaction c4_state 0 = Except.ok
      { st := placeReaction c4_state 0 1 0, found := true } :=
  ((c4_distribute_spec c4_state 0 (by decide) (by decide) (by decide)).1
    1 rfl).1 rfl

/- ============ dispatcher round (claims C2) ========= -/

/-- The done-retirement loop of _lf_sched_update_queues for one worker:
vector_pop yields the done reactions last-first; each is removed from
executing_q by identity, a failed removal being fatal. -/
def removeDoneFromExecuting (executing_q : List Nat) (done : List Nat) :
    Option (List Nat) :=
  List.foldlM (fun q d => pqRemove q d) executing_q done.reverse

/-- The worker loop of _lf_sched_update_queues: for each worker in order,
skip it when busy (recording that some worker was busy); when idle, move
its output reactions (popped last-first) into the reaction queue and
retire its done reactions from the executing queue, leaving both buffers
empty. -/
def updateQueuesGo :
    List Worker → List Nat → List Nat → Bool →
    Except String (List Worker × List Nat × List Nat × Bool)
  | [], rq, exq, busy => Except.ok ([], rq, exq, busy)
  | w :: ws, rq, exq, busy =>
    if w.is_idle then
      match removeDoneFromExecuting exq w.done_reactions with
      | none =>
        Except.error "Scheduler: Could not properly clear the executing queue."
      | some exq2 =>
        match updateQueuesGo ws
            (List.foldl pqInsert rq w.output_reactions.reverse) exq2 busy with
        | Except.error e => Except.error e
        | Except.ok (ws2, rq3, exq3, busy2) =>
          Except.ok
            ({ w with output_reactions := [], done_reactions := [] } :: ws2,
              rq3, exq3, busy2)
    else
      match updateQueuesGo ws rq exq true with
      | Except.error e => Except.error e
      | Except.ok (ws2, rq3, exq3, busy2) =>
        Except.ok (w :: ws2, rq3, exq3, busy2)

/-- _lf_sched_update_queues: drain the buffers of every idle worker into
the global queues and report whether any worker was observed busy. -/
def lf_sched_update_queues (st : Sched) : Except String (Sched × Bool) :=
  match updateQueuesGo st.workers st.reaction_q st.executing_q false with
  | Except.error e => Except.error e
  | Except.ok (ws, rq, exq, busy) =>
    Except.ok ({ st with workers := ws, reaction_q := rq, executing_q := exq },
      busy)

/-- Accumulated result of the pop-and-distribute loop. -/
structure DistLoopResult where
  st : Sched
  transfer : List Nat
  distributed : Nat

/-- The while loop of _lf_sched_distribute_ready_reactions_locked: pop the
reaction queue until empty; blocked reactions and reactions nobody can
take go to the transfer vector, the others are placed on an idle worker.
The blocking test receives the reactions of executing_q and, for the
transfer queue, the junk values the C code actually inspects (it casts
slot addresses, not stored pointers — see the precedence oracle above),
supplied by the unconstrained parameter junk slot by slot.  Each iteration
pops one element, so reaction_q.length iterations of fuel reproduce the
while loop exactly. -/
def distributeLoopGo (junk : Nat → Reaction) :
    Nat → Sched → List Nat → Nat → Except String DistLoopResult
  | 0, st, transfer, count => Except.ok ⟨st, transfer, count⟩
  | fuel + 1, st, transfer, count =>
    match pqPop st.rmap st.reaction_q with
    | none => Except.ok ⟨st, transfer, count⟩
    | some (r, rq2) =>
      let st2 := { st with reaction_q := rq2 }
      if lf_is_blocked_by_executing_or_blocked_reaction
          (st2.executing_q.map st2.rmap)
          ((List.range transfer.length).map junk) (st2.rmap r) then
        distributeLoopGo junk fuel st2 (transfer ++ [r]) count
      else
        match lf_sched_distribute_ready_reaction st2 r with
        | Except.error e => Except.error e
        | Except.ok res =>
          if res.found then
            distributeLoopGo junk fuel res.st transfer (count + 1)
          else distributeLoopGo junk fuel res.st (transfer ++ [r]) count

/-- _lf_sched_distribute_ready_reactions_locked: run the loop, then pop
every transfer entry (last-first) back into the reaction queue and reset
the balancing index; returns the number of reactions distributed. -/
def lf_sched_distribute_ready_reactions_locked (junk : Nat → Reaction)
    (st : Sched) : Except String (Sched × Nat) :=
  match distributeLoopGo junk st.reaction_q.length st [] 0 with
  | Except.error e => Except.error e
  | Except.ok res =>
    Except.ok
      ({ res.st with
          reaction_q := List.foldl pqInsert res.st.reaction_q
            res.transfer.reverse,
          balancing_index := 0 },
        res.distributed)

/-- _lf_sched_notify_workers: CAS is_idle 1 -> 0 on every worker whose
ready queue is non-empty (the condvar signalling is concurrency and is not
modelled). -/
def lf_sched_notify_workers (ws : List Worker) : List Worker :=
  ws.map fun w =>
    if !w.ready_reactions.isEmpty && w.is_idle then { w with is_idle := false }
    else w

/-- Result of one dispatcher round: the final state, whether the stop tag
was reported, whether advance_tag was invoked (ghost), whether the drain
observed a busy worker (ghost), and the state right after the drain
(ghost). -/
structure RoundResult where
  st : Sched
  stop_reached : Bool
  tag_advanced : Bool
  any_busy : Bool
  drained : Sched

/-- _lf_sched_try_advance_tag_and_distribute: assert executing_q non-empty
at entry (the C assert aborts otherwise), drain the worker queues, invoke
advance_tag exactly when no worker was busy and both queues are empty
after the drain, then distribute and — when anything was distributed —
notify the workers.  The external _lf_sched_advance_tag_locked is
represented by its return value advance_returns_stop (its effect is on the
tag state, which the scheduler state does not contain). -/
def lf_sched_try_advance_tag_and_distribute (junk : Nat → Reaction)
    (advance_returns_stop : Bool) (st : Sched) : Except String RoundResult :=
  if st.executing_q.length = 0 then
    Except.error "assertion failed: pqueue_size of executing_q is 0"
  else
    match lf_sched_update_queues st with
    | Except.error e => Except.error e
    | Except.ok (st1, busy) =>
      let advance := !busy && st1.reaction_q.isEmpty && st1.executing_q.isEmpty
      let stop := advance && advance_returns_stop
      match lf_sched_distribute_ready_reactions_locked junk st1 with
      | Except.error e => Except.error e
      | Except.ok (st2, distributed) =>
        let st3 :=
          if 0 < distributed then
            { st2 with workers := lf_sched_notify_workers st2.workers }
          else st2
        Except.ok ⟨st3, stop, advance, busy, st1⟩

/-- Claim C2: in every dispatcher round that runs to completion, the
tag-advance operation is invoked only if the drain that immediately
precedes it observed every worker idle and left both reaction_q and
executing_q empty: tag_advanced implies that the drain of the entry state
succeeded with any_busy = false and that the drained state has empty
queues. -/
theorem c2_tag_advance_guard (junk : Nat → Reaction)
    (advance_returns_stop : Bool) (st : Sched) (out : RoundResult)
    (h : lf_sched_try_advance_tag_and_distribute junk advance_returns_stop st =
      Except.ok out)
    (hadv : out.tag_advanced = true) :
    lf_sched_update_queues st = Except.ok (out.drained, false) ∧
    out.any_busy = false ∧
    out.drained.reaction_q = [] ∧
    out.drained.executing_q = [] := by
  unfold lf_sched_try_advance_tag_and_distribute at h
  by_cases h0 : st.executing_q.length = 0
  · rw [if_pos h0] at h
    exact absurd h (by simp)
  · rw [if_neg h0] at h
    cases hu : lf_sched_update_queues st with
    | error e =>
      rw [hu] at h
      exact absurd h (by simp)
    | ok p =>
      obtain ⟨st1, busy⟩ := p
      rw [hu] at h
      dsimp only at h
      cases hd : lf_sched_distribute_ready_reactions_locked junk st1 with
      | error e =>
        rw [hd] at h
        exact absurd h (by simp)
      | ok q =>
        obtain ⟨st2, distributed⟩ := q
        simp only [hd, Except.ok.injEq] at h
        subst h
        simp only [RoundResult.tag_advanced] at hadv
        simp only [Bool.and_eq_true, Bool.not_eq_true'] at hadv
        obtain ⟨⟨hbusy, hrq⟩, hexq⟩ := hadv
        subst hbusy
        refine ⟨rfl, rfl, ?_, ?_⟩
        · exact List.isEmpty_iff.mp hrq
        · exact List.isEmpty_iff.mp hexq

/-- A reaction map for the round witness. -/
def c2_rmap : Nat → Reaction := fun _ =>
  { index := 0, chain_id := 0, status := Status.running, worker_affinity := 0 }

/-- Entry state of the witness round: one idle worker holding done
reaction 7, which is still in executing_q; the reaction queue is empty. -/
def c2_state : Sched :=
  { rmap := c2_rmap, reaction_q := [], executing_q := [7],
    workers :=
      [ { ready_reactions := [], output_reactions := [],
          done_reactions := [7], is_idle := true, should_stop := false } ],
    balancing_index := 0 }

/-- The drained state of the witness round: reaction 7 retired. -/
def c2_drained : Sched :=
  { rmap := c2_rmap, reaction_q := [], executing_q := [],
    workers :=
      [ { ready_reactions := [], output_reactions := [],
          done_reactions := [], is_idle := true, should_stop := false } ],
    balancing_index := 0 }

/-- The full round result of the witness round: the drain retires 7, both
queues are empty, so advance_tag is invoked and (advance_returns_stop set)
the stop tag is reported; nothing is distributed. -/
def c2_out : RoundResult :=
  { st := c2_drained, stop_reached := true, tag_advanced := true,
    any_busy := false, drained := c2_drained }

/-- Claim C2 witness: the round on c2_state completes, advances the tag,
and the guard conclusion holds there. -/
theorem c2_witness :
    lf_sched_try_advance_tag_and_distribute c2_rmap true c2_state =
      Except.ok c2_out ∧
    (lf_sched_update_queues c2_state = Except.ok (c2_out.drained, false) ∧
     c2_out.any_busy = false ∧
     c2_out.drained.reaction_q = [] ∧
     c2_out.drained.executing_q = []) :=
  ⟨rfl, c2_tag_advance_guard c2_rmap true c2_state c2_out rfl rfl⟩

end ReactorC
